import Mathlib

/-!
Verification development for the photo-splitting pipeline of the
`python-scan-4x4` repository.  The Python sources `smart_split.py`,
`poc_split.py` and `test_smart_split.py` are shallowly embedded below:
images are lists of pixel rows (`Mat` for 8-bit grayscale, `CMat` for BGR
color), OpenCV / numpy primitives are translated to pure list functions,
floating-point quantities are modelled exactly over `ℚ`, and the
file-system / stdout effects of `split_photos_grid_smart` are made explicit
in a `RunResult` record.  Python exceptions are modelled with `Except`.
-/

/-- A grayscale image: a list of rows of 8-bit pixel values (numpy uint8
arrays are always rectangular; theorems carry explicit shape hypotheses
where row lengths matter). -/
abbrev Mat := List (List Nat)

/-- A BGR color pixel `(b, g, r)` as produced by `cv2.imread`. -/
abbrev Pix := Nat × Nat × Nat

/-- A color image: a list of rows of BGR pixels. -/
abbrev CMat := List (List Pix)

/-- Number of rows (`shape[0]`). -/
def height {α : Type} (g : List (List α)) : Nat := g.length

/-- Number of columns (`shape[1]`): the length of the first row. -/
def width {α : Type} (g : List (List α)) : Nat := (g.headD []).length

/-- Python 2-d slice `g[y1:y2, x1:x2]` (all indices nonnegative, as in the
pipeline: out-of-range or reversed bounds give empty slices, matching
numpy). -/
def slice2 {α : Type} (g : List (List α)) (y1 y2 x1 x2 : Nat) : List (List α) :=
  ((g.drop y1).take (y2 - y1)).map fun r => (r.drop x1).take (x2 - x1)

/-- The constant grayscale image of the given size. -/
def uniformG (c : Nat) (h w : Nat) : Mat :=
  List.replicate h (List.replicate w c)

/-- The constant color image of the given size. -/
def uniformC (p : Pix) (h w : Nat) : CMat :=
  List.replicate h (List.replicate w p)

/-- `cv2.cvtColor(img, cv2.COLOR_BGR2GRAY)`: OpenCV's fixed-point BT.601
luminance `(R*4899 + G*9617 + B*1868 + 2^13) >> 14` applied per pixel. -/
def cvtGray (img : CMat) : Mat :=
  img.map fun r => r.map fun p => (4899 * p.2.2 + 9617 * p.2.1 + 1868 * p.1 + 8192) / 16384

/-- Sum of all pixel values of a grayscale image, in `ℚ`. -/
def sumAll (g : Mat) : ℚ :=
  (g.map fun r => (r.map fun v : Nat => (v : ℚ)).sum).sum

/-- `np.mean(gray_section)`: the sum of the entries divided by
`shape[0]*shape[1]`.  Faithful for nonempty sections; on an empty section
numpy produces `nan` (every comparison false), so theorems about sections
assume nonemptiness. -/
def npMean (g : Mat) : ℚ :=
  sumAll g / ((height g * width g : Nat) : ℚ)

/-- `cv2.threshold(gray, t, 255, cv2.THRESH_BINARY_INV)`: a pixel becomes
255 (foreground) when its value is not above `t`, else 0. -/
def fixedThr (g : Mat) (t : Nat) : Mat :=
  g.map fun r => r.map fun v => if t < v then 0 else 255

/-- `np.sum(binary > 0)`: the number of positive entries. -/
def countPos (b : Mat) : Nat :=
  (b.map fun r => r.countP fun v => decide (0 < v)).sum

/-- Number of pixels whose value is at most `t` (the pixels the fixed
inverse threshold marks as content). -/
def countLe (g : Mat) (t : Nat) : Nat :=
  (g.map fun r => r.countP fun v => decide (v ≤ t)).sum

/-- `has_content(gray_section, threshold, min_area_ratio)` from
`smart_split.py` lines 22-48: true when the mean brightness is more than 20
below the threshold, or when the fraction of fixed-threshold content pixels
exceeds the given minimum fraction (default 5%). -/
def has_content (gray_section : Mat) (threshold : Nat) (minAreaFrac : ℚ) : Bool :=
  if npMean gray_section < (threshold : ℚ) - 20 then true
  else
    let binary := fixedThr gray_section threshold
    let content_pixels := countPos binary
    let total_pixels := height gray_section * width gray_section
    decide ((content_pixels : ℚ) / (total_pixels : ℚ) > minAreaFrac)

/-- The four quadrant content flags computed by `detect_layout` lines
118-131: `has_content` of the four half-by-half slices, in the dict order
top_left, top_right, bottom_left, bottom_right. -/
def quadFlags (gray : Mat) (t : Nat) : Bool × Bool × Bool × Bool :=
  let h := height gray
  let w := width gray
  let mid_h := h / 2
  let mid_w := w / 2
  (has_content (slice2 gray 0 mid_h 0 mid_w) t (1/20),
   has_content (slice2 gray 0 mid_h mid_w w) t (1/20),
   has_content (slice2 gray mid_h h 0 mid_w) t (1/20),
   has_content (slice2 gray mid_h h mid_w w) t (1/20))

/-- `content_count`: how many of the four quadrants report content. -/
def quadCount (gray : Mat) (t : Nat) : Nat :=
  let f := quadFlags gray t
  (if f.1 then 1 else 0) + (if f.2.1 then 1 else 0) +
  (if f.2.2.1 then 1 else 0) + (if f.2.2.2 then 1 else 0)

/-- One line of the content-detection log printed by `detect_layout`. -/
def quadLine (name : String) (b : Bool) : String :=
  "    " ++ name ++ ": " ++ (if b then "✓ Photo" else "✗ Empty")

/-- `detect_layout(img, gray, margin_threshold)` from `smart_split.py`
lines 97-172.  The `img` argument is unused by the source function.  The
returned pair is the layout string together with the lines the function
prints (one list entry per `print` call payload). -/
def detect_layout (_img : CMat) (gray : Mat) (t : Nat) : String × List String :=
  let f := quadFlags gray t
  let tl := f.1
  let tr := f.2.1
  let bl := f.2.2.1
  let br := f.2.2.2
  let cnt := quadCount gray t
  let log := ["\n  Content detection:",
              quadLine "top_left" tl, quadLine "top_right" tr,
              quadLine "bottom_left" bl, quadLine "bottom_right" br]
  let layout :=
    if cnt == 4 then "2x2"
    else if cnt == 3 then "3_photos"
    else if cnt == 2 then
      if tl && tr then "1x2_top"
      else if bl && br then "1x2_bottom"
      else if tl && bl then "2x1_left"
      else if tr && br then "2x1_right"
      else "2x2"
    else if cnt == 1 then
      if tl then "1x1_top_left"
      else if tr then "1x1_top_right"
      else if bl then "1x1_bottom_left"
      else if br then "1x1_bottom_right"
      else "1x1"
    else "2x2"
  (layout, log)

/-- The ten layout strings `detect_layout` documents as its outputs. -/
def layoutStrings : List String :=
  ["2x2", "3_photos", "1x2_top", "1x2_bottom", "2x1_left", "2x1_right",
   "1x1_top_left", "1x1_top_right", "1x1_bottom_left", "1x1_bottom_right"]

/-- The four quadrant-specific single-photo layout strings. -/
def oneByOneStrings : List String :=
  ["1x1_top_left", "1x1_top_right", "1x1_bottom_left", "1x1_bottom_right"]

/-!  The contour filter of `test_smart_split.py`, `test_edge_detection`
lines 63-85.  A contour is abstracted by the quantities the filter
inspects: its `cv2.contourArea` and the two side lengths of its
`cv2.minAreaRect`. -/

/-- A detected contour, abstracted by its measured area and the dimensions
of its minimum-area oriented rectangle (floats modelled by `ℚ`). -/
structure Contour where
  area : ℚ
  rw : ℚ
  rh : ℚ
  deriving DecidableEq

/-- The body of the filtering loop of `test_edge_detection` lines 67-81:
keep a contour when `min_area < area < max_area` (2% and 30% of the page
area), the oriented aspect does not exceed 5 (checked only when both
dimensions are positive), and both oriented dimensions are at least
100 pixels. -/
def keepContour (w h : ℚ) (c : Contour) : Bool :=
  let min_area := w * h * (2/100)
  let max_area := w * h * (30/100)
  if min_area < c.area ∧ c.area < max_area then
    if (0 < c.rw ∧ 0 < c.rh) ∧ max c.rw c.rh / min c.rw c.rh > 5 then false
    else if c.rw < 100 ∨ c.rh < 100 then false
    else true
  else false

/-- `valid_contours`: the contours surviving the filter, in order. -/
def valid_contours (w h : ℚ) (cs : List Contour) : List Contour :=
  cs.filter (keepContour w h)

/-!  `poc_split.py`: `split_image_2x2`.  The function computes
`mid_x = width // 2`, `mid_y = height // 2` and crops the four PIL boxes
`(left, top, right, bottom)` listed in its `quadrants` dict, saving them
in the dict's insertion order. -/

/-- A PIL crop box `(left, top, right, bottom)`. -/
abbrev Box := Nat × Nat × Nat × Nat

/-- The `quadrants` dict of `split_image_2x2` (lines 48-53), as the list
of `(name, box)` pairs in insertion order. -/
def quadrants (w h : Nat) : List (String × Box) :=
  let mid_x := w / 2
  let mid_y := h / 2
  [("1_top_left", (0, 0, mid_x, mid_y)),
   ("2_top_right", (mid_x, 0, w, mid_y)),
   ("3_bottom_left", (0, mid_y, mid_x, h)),
   ("4_bottom_right", (mid_x, mid_y, w, h))]

/-- Pixel `(x, y)` lies in the half-open PIL box
`(left, top, right, bottom)`. -/
def inBox (b : Box) (x y : Nat) : Bool :=
  decide (b.1 ≤ x) && decide (x < b.2.2.1) && decide (b.2.1 ≤ y) && decide (y < b.2.2.2)

/-- `PIL.Image.crop(box)` for an in-bounds box: the pixels of the half-open
rectangle. -/
def pilCrop {α : Type} (img : List (List α)) (b : Box) : List (List α) :=
  slice2 img b.2.1 b.2.2.2 b.1 b.2.2.1

/-!  `find_content_bounds` (`smart_split.py` lines 50-95) and the OpenCV
primitives it uses.  The Gaussian adaptive threshold is modelled with exact
rational arithmetic: OpenCV's kernel for `blockSize = 51` has
`sigma = 0.3*((51-1)*0.5 - 1) + 0.8 = 8`, weights proportional to
`exp(-i^2/(2*8^2))` for offsets `i ∈ [-25, 25]`, normalized to sum to one,
and the border is replicated.  `exp` of a nonnegative rational is
approximated by its (positive) truncated Taylor series; the theorems below
use only that the weights are positive and normalized. -/

/-- Truncated Taylor series of `exp x` (16 terms), positive for `x ≥ 0`. -/
def expPosQ (x : ℚ) : ℚ :=
  Finset.sum (Finset.range 16) fun k => x ^ k / (Nat.factorial k : ℚ)

/-- Unnormalized Gaussian tap for offset `k - 25`, `k ∈ [0, 50]`:
`exp(-(k-25)^2/128)` written as `1 / exp((k-25)^2/128)`. -/
def gaussRaw (k : Nat) : ℚ :=
  1 / expPosQ ((((k : ℚ)) - 25) ^ 2 / 128)

/-- Normalization constant of the 51-tap kernel. -/
def gaussS : ℚ :=
  Finset.sum (Finset.range 51) gaussRaw

/-- Normalized Gaussian weight of tap `k`. -/
def gaussW (k : Nat) : ℚ :=
  gaussRaw k / gaussS

/-- Replicated-border index clamping into `[0, n-1]`. -/
def clampIdx (n : Nat) (i : Int) : Nat :=
  if i < 0 then 0 else min i.toNat (n - 1)

/-- Pixel value as a rational (0 outside the lists, never reached by the
clamped accesses below on nonempty images). -/
def pixQ (g : Mat) (y x : Nat) : ℚ :=
  (((g.getD y []).getD x 0 : Nat) : ℚ)

/-- Gaussian-weighted 51×51 neighborhood mean with replicated border, as
computed by `cv2.adaptiveThreshold(..., ADAPTIVE_THRESH_GAUSSIAN_C,
blockSize=51, ...)`. -/
def localMean (g : Mat) (y x : Nat) : ℚ :=
  Finset.sum (Finset.range 51) fun a => Finset.sum (Finset.range 51) fun b =>
    gaussW a * gaussW b *
      pixQ g (clampIdx (height g) ((y : Int) + (a : Int) - 25))
             (clampIdx (width g) ((x : Int) + (b : Int) - 25))

/-- `cv2.adaptiveThreshold(gray, 255, ADAPTIVE_THRESH_GAUSSIAN_C,
THRESH_BINARY_INV, blockSize=51, C=-10)`: a pixel is foreground (255) when
its value is at most the local Gaussian mean plus 10.  Total model: on a
zero-area section OpenCV instead raises `cv2.error` (`GaussianBlur` asserts
a nonempty source), so no theorem below relies on this function's value at
empty inputs — every theorem touching it constrains the image to have
positive height and width. -/
def adaptiveThr (g : Mat) : Mat :=
  (List.range (height g)).map fun y => (List.range (width g)).map fun x =>
    if pixQ g y x ≤ localMean g y x + 10 then 255 else 0

/-- `cv2.bitwise_or` of two equally-shaped binary images. -/
def bitwiseOr (a b : Mat) : Mat :=
  List.zipWith (List.zipWith fun u v => u ||| v) a b

/-- The 25 offsets of the 5×5 all-ones structuring element
(`np.ones((5, 5))`, anchor at the center). -/
def offs5 : List (Int × Int) :=
  (List.range 5).flatMap fun a => (List.range 5).map fun b => ((a : Int) - 2, (b : Int) - 2)

/-- Bounds test for an integer coordinate. -/
def inB (h w : Nat) (y x : Int) : Bool :=
  decide (0 ≤ y) && decide (y < (h : Int)) && decide (0 ≤ x) && decide (x < (w : Int))

/-- Pixel access at an in-bounds integer coordinate. -/
def pixI (b : Mat) (y x : Int) : Nat :=
  (b.getD y.toNat []).getD x.toNat 0

/-- `cv2.dilate` with the 5×5 all-ones kernel (out-of-image taps are
ignored, matching OpenCV's constant `-inf` morphology border). -/
def dilate5 (b : Mat) : Mat :=
  (List.range (height b)).map fun y : Nat => (List.range (width b)).map fun x : Nat =>
    if offs5.any (fun o =>
        inB (height b) (width b) ((y : Int) + o.1) ((x : Int) + o.2) &&
        decide (0 < pixI b ((y : Int) + o.1) ((x : Int) + o.2)))
    then 255 else 0

/-- `cv2.erode` with the 5×5 all-ones kernel (out-of-image taps count as
foreground, matching OpenCV's constant `+inf` morphology border). -/
def erode5 (b : Mat) : Mat :=
  (List.range (height b)).map fun y : Nat => (List.range (width b)).map fun x : Nat =>
    if offs5.all (fun o =>
        !(inB (height b) (width b) ((y : Int) + o.1) ((x : Int) + o.2)) ||
        decide (0 < pixI b ((y : Int) + o.1) ((x : Int) + o.2)))
    then 255 else 0

/-- `cv2.morphologyEx(binary, cv2.MORPH_CLOSE, np.ones((5, 5)))`. -/
def morphClose (b : Mat) : Mat :=
  erode5 (dilate5 b)

/-- The combined binary mask of `find_content_bounds` lines 59-76: the
adaptive threshold OR-ed with the fixed threshold, then morphologically
closed. -/
def contentMask (g : Mat) (t : Nat) : Mat :=
  morphClose (bitwiseOr (adaptiveThr g) (fixedThr g t))

/-- The indices of rows of the mask containing a foreground pixel
(`np.where(rows_with_content)[0]`, ascending). -/
def rowsWith (bin : Mat) (h : Nat) : List Nat :=
  (List.range h).filter fun i => (bin.getD i []).any fun v => decide (0 < v)

/-- The indices of columns of the mask containing a foreground pixel. -/
def colsWith (bin : Mat) (w : Nat) : List Nat :=
  (List.range w).filter fun j => bin.any fun row => decide (0 < row.getD j 0)

/-- `find_content_bounds(gray_section, threshold)` from `smart_split.py`
lines 50-95: margins `(top, bottom, left, right)` of the content inside the
section; when no mask row or column holds content, lines 86-88 return
`(0, shape[0], 0, shape[1])`. -/
def find_content_bounds (g : Mat) (t : Nat) : Nat × Nat × Nat × Nat :=
  let bin := contentMask g t
  let h := height g
  let w := width g
  let row_indices := rowsWith bin h
  let col_indices := colsWith bin w
  if row_indices.isEmpty || col_indices.isEmpty then
    (0, h, 0, w)
  else
    (row_indices.headD 0, h - row_indices.getLastD 0,
     col_indices.headD 0, w - col_indices.getLastD 0)

/-!  The main pipeline `split_photos_grid_smart` (`smart_split.py` lines
174-347), decomposed into the page-margin crop, the section table, the
per-section loop, and the try/finally wrapper.  Each `print(...)` payload
becomes one entry of the diagnostic line list, in order. -/

/-- The line `"=" * 60`. -/
def eqLine : String :=
  String.mk (List.replicate 60 '=')

/-- `Path(image_path).stem`: the final path component without its last
extension. -/
def stem (p : String) : String :=
  let file := (p.splitOn "/").getLastD p
  let parts := file.splitOn "."
  if parts.length ≤ 1 then file else String.intercalate "." parts.dropLast

/-- `layout.startswith("1x1")`, written over the character data so that it
evaluates by reduction. -/
def startsWith1x1 (layout : String) : Bool :=
  "1x1".data.isPrefixOf layout.data

/-- The section table built from the detected layout (`smart_split.py`
lines 241-292): row range, column range and position label of each grid
section. -/
def sectionsFor (layout : String) (h w : Nat) : List ((Nat × Nat) × (Nat × Nat) × String) :=
  let mid_h := h / 2
  let mid_w := w / 2
  if startsWith1x1 layout then
    [((0, h), (0, w), "single")]
  else if layout == "1x2_top" then
    [((0, h), (0, mid_w), "left"), ((0, h), (mid_w, w), "right")]
  else if layout == "1x2_bottom" then
    [((0, h), (0, mid_w), "left"), ((0, h), (mid_w, w), "right")]
  else if layout == "2x1_left" then
    [((0, mid_h), (0, w), "top"), ((mid_h, h), (0, w), "bottom")]
  else if layout == "2x1_right" then
    [((0, mid_h), (0, w), "top"), ((mid_h, h), (0, w), "bottom")]
  else
    [((0, mid_h), (0, mid_w), "top-left"), ((0, mid_h), (mid_w, w), "top-right"),
     ((mid_h, h), (0, mid_w), "bottom-left"), ((mid_h, h), (mid_w, w), "bottom-right")]

/-- Refinement of one section (`smart_split.py` lines 317-322): crop the
section by the margins `find_content_bounds` reports on its grayscale
version. -/
def refineCrop (sec : CMat) (gray_section : Mat) (t : Nat) : CMat :=
  let m := find_content_bounds gray_section t
  slice2 sec m.1 (height sec - m.2.1) m.2.2.1 (width sec - m.2.2.2)

/-- The per-section loop (`smart_split.py` lines 303-331): slices each
section out of the cropped page, skips sections without content, refines
and "saves" the rest under consecutive photo numbers.  Returns the saved
`(path, pixels)` pairs and the printed lines. -/
def processSections (img : CMat) (gray : Mat) (t : Nat) (base outDir : String) :
    List ((Nat × Nat) × (Nat × Nat) × String) → Nat → List (String × CMat) × List String
  | [], _ => ([], [])
  | (((y1, y2), (x1, x2), pos) :: rest), num =>
    let sec := slice2 img y1 y2 x1 x2
    let gray_section := slice2 gray y1 y2 x1 x2
    let hd := ["\n  Section " ++ pos ++ ":",
               "    Grid bounds: (" ++ toString x1 ++ ", " ++ toString y1 ++ ") to (" ++
                 toString x2 ++ ", " ++ toString y2 ++ ")"]
    if has_content gray_section t (1/20) = false then
      let r := processSections img gray t base outDir rest num
      (r.1, hd ++ ["    ✗ Skipping - no content detected"] ++ r.2)
    else
      let m := find_content_bounds gray_section t
      let cropped := slice2 sec m.1 (height sec - m.2.1) m.2.2.1 (width sec - m.2.2.2)
      let fname := outDir ++ "/" ++ base ++ "_photo_" ++ toString num ++ ".png"
      let r := processSections img gray t base outDir rest (num + 1)
      ((fname, cropped) :: r.1,
       hd ++ ["    Margins: top=" ++ toString m.1 ++ ", bottom=" ++ toString m.2.1 ++
                ", left=" ++ toString m.2.2.1 ++ ", right=" ++ toString m.2.2.2,
              "    Final size: " ++ toString (width cropped) ++ " x " ++ toString (height cropped),
              "    ✓ Saved: " ++ fname] ++ r.2)

/-- Layout detection plus extraction on the page-cropped image
(`smart_split.py` lines 236-335): detects the layout, builds the section
table from the cropped page's shape, and runs the section loop. -/
def layoutAndExtract (img : CMat) (gray : Mat) (t : Nat) (base outDir : String) :
    List (String × CMat) × List String :=
  let d := detect_layout img gray t
  let layout := d.1
  let h := height img
  let w := width img
  let sections := sectionsFor layout h w
  let r := processSections img gray t base outDir sections 1
  (r.1,
   ["\nDetecting layout..."] ++ d.2 ++
   ["\n  Detected layout: " ++ layout,
    "\nProcessing " ++ toString sections.length ++ " section(s)..."] ++ r.2 ++
   ["\n" ++ eqLine,
    "✓ Split complete! Saved " ++ toString r.1.length ++ " photo(s)",
    eqLine])

/-- The body of `split_photos_grid_smart` after a successful image load
(`smart_split.py` lines 218-335): page-margin removal via
`find_content_bounds` on the full grayscale page, then layout detection and
extraction on the cropped page. -/
def splitCore (img : CMat) (image_path outDir : String) (t : Nat) :
    List (String × CMat) × List String :=
  let h := height img
  let w := width img
  let gray := cvtGray img
  let m := find_content_bounds gray t
  let img2 := slice2 img m.1 (h - m.2.1) m.2.2.1 (w - m.2.2.2)
  let gray2 := slice2 gray m.1 (h - m.2.1) m.2.2.1 (w - m.2.2.2)
  let base := stem image_path
  let r := layoutAndExtract img2 gray2 t base outDir
  (r.1,
   [eqLine, "Smart Photo Splitter V2 - Adaptive Layout", eqLine,
    "\nLoading: " ++ image_path,
    "  Size: " ++ toString w ++ " x " ++ toString h ++ " pixels",
    "\nRemoving page margins...",
    "  Cropped to content area: " ++ toString (width img2) ++ " x " ++
      toString (height img2) ++ " pixels",
    "  Removed margins: top=" ++ toString m.1 ++ ", bottom=" ++ toString m.2.1 ++
      ", left=" ++ toString m.2.2.1 ++ ", right=" ++ toString m.2.2.2] ++ r.2)

/-- A Python exception reaching the caller. -/
inductive PyErr where
  | fileNotFound (msg : String)
  | unboundLocal (name : String)
  deriving DecidableEq

/-- The content of a file the pipeline writes. -/
inductive FileBlob where
  | img (m : CMat)
  | txt (s : String)
  deriving DecidableEq

/-- The observable outcome of one `split_photos_grid_smart` invocation:
the returned value or the escaping exception, the files written (in write
order), and the lines printed to stdout. -/
structure RunResult where
  ret : Except PyErr (List String)
  written : List (String × FileBlob)
  stdoutLines : List String

/-- `load_image` (`smart_split.py` lines 15-20): `cv2.imread` yields `None`
for a missing or unreadable file, in which case a `FileNotFoundError` is
raised.  The modelled file system supplies the decoded image as an
`Option`. -/
def load_image (file : Option CMat) (image_path : String) : Except PyErr CMat :=
  match file with
  | none => .error (.fileNotFound ("Cannot load image: " ++ image_path))
  | some img => .ok img

/-- `split_photos_grid_smart(image_path, output_dir, margin_threshold)`
(`smart_split.py` lines 174-347) with its try/finally wrapper.  When
`load_image` raises, the `finally` block (lines 337-345) evaluates
`output_path / f"{base_name}_split_log.txt"` although `output_path` (line
297) and `base_name` (line 300) were never assigned, so an
`UnboundLocalError` for `output_path` replaces the in-flight
`FileNotFoundError` and nothing is written.  On success the `finally` block
writes the captured log after the photo files. -/
def split_photos_grid_smart (file : Option CMat) (image_path output_dir : String)
    (margin_threshold : Nat) : RunResult :=
  let banner := [eqLine, "Smart Photo Splitter V2 - Adaptive Layout", eqLine,
                 "\nLoading: " ++ image_path]
  match load_image file image_path with
  | .error _ =>
    { ret := .error (.unboundLocal "output_path"), written := [], stdoutLines := banner }
  | .ok img =>
    let r := splitCore img image_path output_dir margin_threshold
    let base := stem image_path
    { ret := .ok (r.1.map Prod.fst),
      written := r.1.map (fun fc => (fc.1, FileBlob.img fc.2)) ++
                 [(output_dir ++ "/" ++ base ++ "_split_log.txt",
                   FileBlob.txt (String.join (r.2.map fun l => l ++ "\n")))],
      stdoutLines := r.2 }

/-!  Concrete example inputs used by counterexamples and witnesses. -/

/-- A 4×4 grayscale page whose content sits in the two diagonal quadrants
top-left and bottom-right (dark = 0, background = 255). -/
def g6diag : Mat :=
  [[0, 0, 255, 255], [0, 0, 255, 255], [255, 255, 0, 0], [255, 255, 0, 0]]

/-- A 4×4 grayscale page whose only content quadrant is the top-left one. -/
def gOneQuad : Mat :=
  [[0, 0, 255, 255], [0, 0, 255, 255], [255, 255, 255, 255], [255, 255, 255, 255]]

/-!  Helper lemmas. -/

theorem getD_replicate {α : Type} (a d : α) : ∀ (n i : Nat), i < n → (List.replicate n a).getD i d = a := by
  intro n
  induction n with
  | zero => intro i hi; omega
  | succ m ih =>
    intro i hi
    cases i with
    | zero => rfl
    | succ j => simpa [List.replicate_succ] using ih j (by omega)

theorem zipWith_replicate2 {α β γ : Type} (f : α → β → γ) (a : α) (b : β) :
    ∀ n, List.zipWith f (List.replicate n a) (List.replicate n b) = List.replicate n (f a b) := by
  intro n
  induction n with
  | zero => rfl
  | succ m ih => simp [List.replicate_succ, ih]

theorem countPos_fixedThr (g : Mat) (t : Nat) : countPos (fixedThr g t) = countLe g t := by
  unfold countPos countLe fixedThr
  rw [List.map_map]
  congr 1
  apply List.map_congr_left
  intro r _
  simp only [Function.comp]
  rw [List.countP_map]
  apply List.countP_congr
  intro v _
  by_cases h : t < v
  · simp [h, Nat.not_le.mpr h]
  · simp [h, Nat.not_lt.mp h]

/-- C5: for every nonempty grayscale quadrant section, `has_content` (with
the default threshold 220 and minimum fraction 5%) returns true if and only
if the section's mean luminance is below the threshold minus the fixed
delta 20, or the fraction of pixels at most the threshold (the pixels the
inverse binary threshold marks as content) strictly exceeds 5% of the
section's pixels. -/
theorem c5_has_content_iff (g : Mat) (hh : 0 < height g) (hw : 0 < width g) :
    has_content g 220 (1/20) = true ↔
      (npMean g < 200 ∨
       ((countLe g 220 : ℚ) / ((height g * width g : Nat) : ℚ) > 1/20)) := by
  have hc : countPos (fixedThr g 220) = countLe g 220 := countPos_fixedThr g 220
  have h220 : ((220 : Nat) : ℚ) - 20 = 200 := by norm_num
  simp only [has_content, h220, hc, decide_eq_true_eq]
  by_cases hm : npMean g < 200
  · simp [hm]
  · simp [hm]

/-- C5 (witness): the iff evaluated on a concrete nonempty 1×2 section. -/
theorem c5_has_content_iff_witness :
    has_content [[0, 255]] 220 (1/20) = true ↔
      (npMean [[0, 255]] < 200 ∨
       ((countLe [[0, 255]] 220 : ℚ) / ((height ([[0, 255]] : Mat) * width ([[0, 255]] : Mat) : Nat) : ℚ) > 1/20)) :=
  c5_has_content_iff [[0, 255]] (by decide) (by decide)

theorem keepContour_iff (w h : ℚ) (c : Contour) :
    keepContour w h c = true ↔
      (w * h * (2/100) < c.area ∧ c.area < w * h * (30/100)) ∧
      ¬((0 < c.rw ∧ 0 < c.rh) ∧ max c.rw c.rh / min c.rw c.rh > 5) ∧
      ¬(c.rw < 100 ∨ c.rh < 100) := by
  simp only [keepContour]
  split_ifs with h1 h2 h3
  · simp_all
  · simp_all
  · simp_all
  · simp_all

theorem c4_keep_concrete :
    keepContour 3000 3000 ⟨300000, 400, 100⟩ = true := by
  have hmax : max (400 : ℚ) 100 = 400 := max_eq_left (by norm_num)
  have hmin : min (400 : ℚ) 100 = 100 := min_eq_right (by norm_num)
  rw [keepContour_iff]
  refine ⟨⟨by norm_num, by norm_num⟩, ?_, by norm_num⟩
  simp only [hmax, hmin]
  norm_num

/-- C4 (counterexample): on a 3000×3000 page, a contour of area 300000
(3.33% of the page) whose oriented rectangle is 400×100 survives the
filter, although its aspect ratio 4 exceeds the 3.5 ceiling the claim
states — the code's ceiling is 5, not 3.5. -/
theorem c4_counterexample :
    valid_contours 3000 3000 [⟨300000, 400, 100⟩] = [⟨300000, 400, 100⟩] ∧
    max (400 : ℚ) 100 / min (400 : ℚ) 100 > 35/10 := by
  have hmax : max (400 : ℚ) 100 = 400 := max_eq_left (by norm_num)
  have hmin : min (400 : ℚ) 100 = 100 := min_eq_right (by norm_num)
  constructor
  · simp [valid_contours, List.filter, c4_keep_concrete]
  · rw [hmax, hmin]
    norm_num

/-- C4 (amended): every contour surviving `valid_contours` on a page of
positive dimensions has area strictly between 2% and 30% of the page area
(hence between the claimed 2% and 90% bounds), both oriented-rectangle
dimensions at least 100 pixels, and longer-to-shorter aspect ratio at most
5 (the code's ceiling, not the claimed 3.5); and every contour violating
any of these bounds is discarded. -/
theorem c4_filter_invariant (w h : ℚ) (cs : List Contour) (hw : 0 < w) (hh : 0 < h) :
    (∀ c ∈ valid_contours w h cs,
        w * h * (2/100) < c.area ∧ c.area < w * h * (30/100) ∧
        c.area ≤ w * h * (90/100) ∧
        100 ≤ c.rw ∧ 100 ≤ c.rh ∧ max c.rw c.rh / min c.rw c.rh ≤ 5) ∧
    (∀ c ∈ cs,
        (c.area ≤ w * h * (2/100) ∨ w * h * (30/100) ≤ c.area ∨
         c.rw < 100 ∨ c.rh < 100 ∨
         (0 < c.rw ∧ 0 < c.rh ∧ max c.rw c.rh / min c.rw c.rh > 5)) →
        c ∉ valid_contours w h cs) := by
  have hwh : (0 : ℚ) < w * h := mul_pos hw hh
  constructor
  · intro c hc
    rw [valid_contours, List.mem_filter] at hc
    obtain ⟨-, hk⟩ := hc
    rw [keepContour_iff] at hk
    obtain ⟨⟨ha1, ha2⟩, hasp, hdim⟩ := hk
    push_neg at hdim
    obtain ⟨hrw, hrh⟩ := hdim
    refine ⟨ha1, ha2, by nlinarith, hrw, hrh, ?_⟩
    by_contra hgt
    push_neg at hgt
    exact hasp ⟨⟨by linarith, by linarith⟩, hgt⟩
  · intro c _ hviol hmem
    rw [valid_contours, List.mem_filter] at hmem
    obtain ⟨-, hk⟩ := hmem
    rw [keepContour_iff] at hk
    obtain ⟨⟨ha1, ha2⟩, hasp, hdim⟩ := hk
    push_neg at hdim
    obtain ⟨hrw, hrh⟩ := hdim
    rcases hviol with hv | hv | hv | hv | hv
    · linarith
    · linarith
    · linarith
    · linarith
    · exact hasp ⟨⟨hv.1, hv.2.1⟩, hv.2.2⟩

/-- C4 (witness): the amended invariant applied to the concrete surviving
contour of the counterexample page. -/
theorem c4_filter_invariant_witness :
    (⟨300000, 400, 100⟩ : Contour).area ≤ 3000 * 3000 * (90/100) ∧
    max (⟨300000, 400, 100⟩ : Contour).rw (⟨300000, 400, 100⟩ : Contour).rh /
      min (⟨300000, 400, 100⟩ : Contour).rw (⟨300000, 400, 100⟩ : Contour).rh ≤ 5 := by
  have hmem : (⟨300000, 400, 100⟩ : Contour) ∈ valid_contours 3000 3000 [⟨300000, 400, 100⟩] := by
    rw [valid_contours, List.mem_filter]
    exact ⟨by simp, c4_keep_concrete⟩
  have := (c4_filter_invariant 3000 3000 [⟨300000, 400, 100⟩] (by norm_num) (by norm_num)).1
    ⟨300000, 400, 100⟩ hmem
  exact ⟨this.2.2.1, this.2.2.2.2.2⟩

/-- C9: for every input image of positive width and height,
`split_image_2x2` produces exactly four crops, named and ordered top-left,
top-right, bottom-left, bottom-right, whose boxes are the four claimed
half-open rectangles; the boxes are pairwise disjoint (no pixel lies in two
of them) and they cover every pixel of the image, including for odd
dimensions. -/
theorem c9_quadrants_partition (w h : Nat) (hw : 1 ≤ w) (hh : 1 ≤ h) :
    (quadrants w h).length = 4 ∧
    (quadrants w h).map Prod.fst =
      ["1_top_left", "2_top_right", "3_bottom_left", "4_bottom_right"] ∧
    (quadrants w h).map Prod.snd =
      [(0, 0, w / 2, h / 2), (w / 2, 0, w, h / 2), (0, h / 2, w / 2, h), (w / 2, h / 2, w, h)] ∧
    (∀ x y : Nat, ((quadrants w h).countP fun nb => inBox nb.2 x y) ≤ 1) ∧
    (∀ x y : Nat, x < w → y < h → ((quadrants w h).countP fun nb => inBox nb.2 x y) = 1) := by
  refine ⟨rfl, rfl, rfl, ?_, ?_⟩
  · intro x y
    simp only [quadrants, inBox, List.countP_cons, List.countP_nil,
               Bool.and_eq_true, decide_eq_true_eq]
    split_ifs <;> omega
  · intro x y hx hy
    simp only [quadrants, inBox, List.countP_cons, List.countP_nil,
               Bool.and_eq_true, decide_eq_true_eq]
    split_ifs <;> omega

/-- C9 (witness): the partition property of the four boxes evaluated on the
5×4 image at pixel (3, 1). -/
theorem c9_quadrants_partition_witness :
    ((quadrants 5 4).countP fun nb => inBox nb.2 3 1) = 1 :=
  (c9_quadrants_partition 5 4 (by decide) (by decide)).2.2.2.2 3 1 (by decide) (by decide)

/-- C10: for every nonempty grayscale input, `detect_layout` returns one of
the ten documented layout strings (the bare "1x1" fallback is never
produced), and whenever exactly one quadrant tests as having content the
result is one of the four quadrant-specific "1x1_*" strings. -/
theorem c10_detect_layout_total (img : CMat) (g : Mat) (t : Nat) (hg : 0 < height g) :
    (detect_layout img g t).1 ∈ layoutStrings ∧
    (quadCount g t = 1 → (detect_layout img g t).1 ∈ oneByOneStrings) := by
  cases h1 : (quadFlags g t).1 <;> cases h2 : (quadFlags g t).2.1 <;>
    cases h3 : (quadFlags g t).2.2.1 <;> cases h4 : (quadFlags g t).2.2.2 <;>
      simp_all [detect_layout, quadCount, layoutStrings, oneByOneStrings]

/-- C10 (witness): the totality theorem instantiated on the page whose only
content quadrant is the top-left one. -/
theorem c10_detect_layout_total_witness :
    (detect_layout [] gOneQuad 220).1 ∈ layoutStrings :=
  (c10_detect_layout_total [] gOneQuad 220 (by decide)).1

/-- C6 (amended): a page whose quadrant occupancy is exactly two diagonally
opposite quadrants is classified as the all-four "2x2" layout; no
`AmbiguousLayout` flag is produced — the code's only outputs are the layout
string and the per-quadrant content log lines. -/
theorem c6_diagonal_as_2x2 (img : CMat) (g : Mat) (t : Nat)
    (hdiag : quadFlags g t = (true, false, false, true) ∨
             quadFlags g t = (false, true, true, false)) :
    (detect_layout img g t).1 = "2x2" := by
  rcases hdiag with hf | hf <;> simp [detect_layout, quadCount, hf]

theorem slice_g6diag_tl : slice2 g6diag 0 2 0 2 = [[0, 0], [0, 0]] := rfl

theorem slice_g6diag_tr : slice2 g6diag 0 2 2 4 = [[255, 255], [255, 255]] := rfl

theorem has_content_dark2 : has_content [[0, 0], [0, 0]] 220 (1/20) = true := by
  simp only [has_content]
  rw [if_pos]
  norm_num [npMean, sumAll, height, width]

theorem has_content_white2 : has_content [[255, 255], [255, 255]] 220 (1/20) = false := by
  simp only [has_content]
  rw [if_neg]
  · norm_num [fixedThr, countPos, height, width]
  · norm_num [npMean, sumAll, height, width]

theorem quadFlags_g6diag : quadFlags g6diag 220 = (true, false, false, true) := by
  have h : quadFlags g6diag 220 =
      (has_content [[0, 0], [0, 0]] 220 (1/20), has_content [[255, 255], [255, 255]] 220 (1/20),
       has_content [[255, 255], [255, 255]] 220 (1/20), has_content [[0, 0], [0, 0]] 220 (1/20)) := rfl
  rw [h, has_content_dark2, has_content_white2]

/-- C6 (counterexample): the complete observable output of `detect_layout`
on a page with exactly diagonal (top-left and bottom-right) quadrant
occupancy: the layout string "2x2" and the four per-quadrant content log
lines.  No `AmbiguousLayout` flag (nor any other marker distinguishing the
diagonal case from a genuine four-photo page) appears anywhere in the
output, contrary to the claim. -/
theorem c6_counterexample :
    quadFlags g6diag 220 = (true, false, false, true) ∧
    detect_layout [] g6diag 220 =
      ("2x2", ["\n  Content detection:",
               "    top_left: ✓ Photo", "    top_right: ✗ Empty",
               "    bottom_left: ✗ Empty", "    bottom_right: ✓ Photo"]) := by
  refine ⟨quadFlags_g6diag, ?_⟩
  simp [detect_layout, quadCount, quadFlags_g6diag, quadLine]

/-- C6 (witness): the amended classification applied to the concrete
diagonal page. -/
theorem c6_diagonal_as_2x2_witness :
    (detect_layout [] g6diag 220).1 = "2x2" :=
  c6_diagonal_as_2x2 [] g6diag 220 (Or.inl quadFlags_g6diag)

/-- C7 (code_bug): calling `split_photos_grid_smart` on a missing input
file does not deliver the typed `FileNotFoundError` to the caller: the
`finally` block reads the never-assigned `output_path` local, so an
`UnboundLocalError` replaces the typed error.  No photo file and no log
file is written (the log write itself is what crashes). -/
theorem c7_missing_file_error_masked :
    (split_photos_grid_smart none "missing.png" "photos" 220).ret =
      Except.error (PyErr.unboundLocal "output_path") ∧
    (split_photos_grid_smart none "missing.png" "photos" 220).written = [] ∧
    ∀ msg : String, (split_photos_grid_smart none "missing.png" "photos" 220).ret ≠
      Except.error (PyErr.fileNotFound msg) := by
  refine ⟨rfl, rfl, ?_⟩
  intro msg h
  simp [split_photos_grid_smart, load_image] at h

/-- C8: extraction is deterministic — two invocations of
`split_photos_grid_smart` on the same modelled file content, path, output
directory and threshold yield the same returned path list, the same written
files (photo pixel buffers and log, in the same order) and the same
diagnostic output.  The embedding is a pure function of its inputs; the
Python source consults no randomness, time, or environment beyond the
modelled inputs. -/
theorem c8_determinism (file : Option CMat) (image_path output_dir : String) (t : Nat) :
    (split_photos_grid_smart file image_path output_dir t).ret =
      (split_photos_grid_smart file image_path output_dir t).ret ∧
    (split_photos_grid_smart file image_path output_dir t).written =
      (split_photos_grid_smart file image_path output_dir t).written ∧
    (split_photos_grid_smart file image_path output_dir t).stdoutLines =
      (split_photos_grid_smart file image_path output_dir t).stdoutLines :=
  ⟨rfl, rfl, rfl⟩

/-!  Uniform-image lemmas for the blank-page and reading-order claims. -/

theorem height_rep {α : Type} (h w : Nat) (a : α) :
    height (List.replicate h (List.replicate w a)) = h := by
  simp [height]

theorem width_rep {α : Type} (h w : Nat) (a : α) (hh : 0 < h) :
    width (List.replicate h (List.replicate w a)) = w := by
  cases h with
  | zero => omega
  | succ n => simp [width, List.replicate_succ]

theorem height_uniformG (c h w : Nat) : height (uniformG c h w) = h :=
  height_rep h w c

theorem width_uniformG (c h w : Nat) (hh : 0 < h) : width (uniformG c h w) = w :=
  width_rep h w c hh

theorem height_uniformC (p : Pix) (h w : Nat) : height (uniformC p h w) = h :=
  height_rep h w p

theorem width_uniformC (p : Pix) (h w : Nat) (hh : 0 < h) : width (uniformC p h w) = w :=
  width_rep h w p hh

theorem slice2_rep {α : Type} (a : α) (h w y1 y2 x1 x2 : Nat) :
    slice2 (List.replicate h (List.replicate w a)) y1 y2 x1 x2 =
      List.replicate (min (y2 - y1) (h - y1)) (List.replicate (min (x2 - x1) (w - x1)) a) := by
  simp [slice2, List.drop_replicate, List.take_replicate, List.map_replicate]

theorem slice2_uniformG (c h w y1 y2 x1 x2 : Nat) :
    slice2 (uniformG c h w) y1 y2 x1 x2 =
      uniformG c (min (y2 - y1) (h - y1)) (min (x2 - x1) (w - x1)) :=
  slice2_rep c h w y1 y2 x1 x2

theorem slice2_uniformC (p : Pix) (h w y1 y2 x1 x2 : Nat) :
    slice2 (uniformC p h w) y1 y2 x1 x2 =
      uniformC p (min (y2 - y1) (h - y1)) (min (x2 - x1) (w - x1)) :=
  slice2_rep p h w y1 y2 x1 x2

theorem sumRow_rep (c w : Nat) :
    (List.map (fun v : Nat => (v : ℚ)) (List.replicate w c)).sum = (w : ℚ) * (c : ℚ) := by
  rw [List.map_replicate, List.sum_replicate, nsmul_eq_mul]

theorem sumAll_uniformG (c h w : Nat) :
    sumAll (uniformG c h w) = (h : ℚ) * ((w : ℚ) * (c : ℚ)) := by
  rw [sumAll, uniformG, List.map_replicate, sumRow_rep, List.sum_replicate, nsmul_eq_mul]

theorem npMean_uniformG (c h w : Nat) (hh : 0 < h) (hw : 0 < w) :
    npMean (uniformG c h w) = (c : ℚ) := by
  rw [npMean, sumAll_uniformG, height_uniformG, width_uniformG c h w hh]
  have h0 : ((h : ℚ)) ≠ 0 := Nat.cast_ne_zero.mpr (by omega)
  have w0 : ((w : ℚ)) ≠ 0 := Nat.cast_ne_zero.mpr (by omega)
  push_cast
  field_simp
  ring

theorem countP_rep {α : Type} (p : α → Bool) (a : α) :
    ∀ n, (List.replicate n a).countP p = if p a then n else 0 := by
  intro n
  induction n with
  | zero => simp
  | succ m ih =>
    by_cases hp : p a <;> simp [List.replicate_succ, List.countP_cons, hp, ih]

theorem fixedThr_white (h w : Nat) :
    fixedThr (uniformG 255 h w) 220 = uniformG 0 h w := by
  simp [fixedThr, uniformG, List.map_replicate]

theorem countPos_zeroes (h w : Nat) : countPos (uniformG 0 h w) = 0 := by
  simp [countPos, uniformG, List.map_replicate, countP_rep, List.sum_replicate]

theorem has_content_white (m n : Nat) (hm : 0 < m) (hn : 0 < n) :
    has_content (uniformG 255 m n) 220 (1/20) = false := by
  simp only [has_content]
  rw [if_neg]
  · rw [fixedThr_white, countPos_zeroes]
    norm_num
  · rw [npMean_uniformG 255 m n hm hn]
    norm_num

theorem map_range_const {α : Type} (n : Nat) (f : Nat → α) (a : α)
    (hf : ∀ i, i < n → f i = a) : (List.range n).map f = List.replicate n a := by
  rw [List.eq_replicate_iff]
  refine ⟨by simp, ?_⟩
  intro b hb
  obtain ⟨i, hi, rfl⟩ := List.mem_map.mp hb
  exact hf i (List.mem_range.mp hi)

theorem expPosQ_pos (x : ℚ) (hx : 0 ≤ x) : 0 < expPosQ x := by
  unfold expPosQ
  apply Finset.sum_pos'
  · intro i _
    positivity
  · refine ⟨0, Finset.mem_range.mpr (by norm_num), ?_⟩
    norm_num [Nat.factorial]

theorem gaussRaw_pos (k : Nat) : 0 < gaussRaw k := by
  unfold gaussRaw
  apply one_div_pos.mpr
  apply expPosQ_pos
  positivity

theorem gaussS_pos : 0 < gaussS := by
  unfold gaussS
  exact Finset.sum_pos (fun k _ => gaussRaw_pos k) ⟨0, Finset.mem_range.mpr (by norm_num)⟩

theorem sum_gaussW : (Finset.sum (Finset.range 51) fun k => gaussW k) = 1 := by
  unfold gaussW
  rw [← Finset.sum_div]
  exact div_self (ne_of_gt gaussS_pos)

theorem pixQ_uniformG (c h w y x : Nat) (hy : y < h) (hx : x < w) :
    pixQ (uniformG c h w) y x = (c : ℚ) := by
  unfold pixQ uniformG
  rw [getD_replicate _ _ _ _ hy, getD_replicate _ _ _ _ hx]

theorem clampIdx_lt (n : Nat) (i : Int) (hn : 0 < n) : clampIdx n i < n := by
  unfold clampIdx
  split
  · exact hn
  · exact lt_of_le_of_lt (Nat.min_le_right _ _) (by omega)

theorem localMean_uniformG (c h w y x : Nat) (hh : 0 < h) (hw : 0 < w) :
    localMean (uniformG c h w) y x = (c : ℚ) := by
  unfold localMean
  have hpix : ∀ a b : Nat,
      pixQ (uniformG c h w)
        (clampIdx (height (uniformG c h w)) ((y : Int) + (a : Int) - 25))
        (clampIdx (width (uniformG c h w)) ((x : Int) + (b : Int) - 25)) = (c : ℚ) := by
    intro a b
    rw [height_uniformG, width_uniformG c h w hh]
    exact pixQ_uniformG c h w _ _ (clampIdx_lt h _ hh) (clampIdx_lt w _ hw)
  simp only [hpix]
  have h1 : ∀ a : Nat,
      (Finset.sum (Finset.range 51) fun b => gaussW a * gaussW b * (c : ℚ)) =
        gaussW a * (c : ℚ) := by
    intro a
    have : (fun b => gaussW a * gaussW b * (c : ℚ)) = fun b => gaussW a * (gaussW b * (c : ℚ)) :=
      funext fun b => by ring
    rw [this, ← Finset.mul_sum, ← Finset.sum_mul, sum_gaussW, one_mul]
  simp only [h1]
  rw [← Finset.sum_mul, sum_gaussW, one_mul]

theorem adaptiveThr_uniformG (c h w : Nat) (hh : 0 < h) (hw : 0 < w) :
    adaptiveThr (uniformG c h w) = uniformG 255 h w := by
  unfold adaptiveThr
  rw [height_uniformG, show uniformG 255 h w = List.replicate h (List.replicate w 255) from rfl]
  apply map_range_const
  intro y hy
  rw [width_uniformG c h w hh]
  apply map_range_const
  intro x hx
  rw [pixQ_uniformG c h w y x hy hx, localMean_uniformG c h w y x hh hw]
  rw [if_pos (by linarith)]

theorem bitwiseOr_white (h w : Nat) :
    bitwiseOr (uniformG 255 h w) (uniformG 0 h w) = uniformG 255 h w := by
  unfold bitwiseOr uniformG
  rw [zipWith_replicate2, zipWith_replicate2, show (255 ||| 0 : Nat) = 255 from rfl]

theorem pixI_rep (c h w : Nat) (y x : Int) (hy0 : 0 ≤ y) (hyh : y < (h : Int))
    (hx0 : 0 ≤ x) (hxw : x < (w : Int)) :
    pixI (List.replicate h (List.replicate w c)) y x = c := by
  unfold pixI
  rw [getD_replicate _ _ _ _ (by omega), getD_replicate _ _ _ _ (by omega)]

theorem dilate5_white (h w : Nat) (hh : 0 < h) (hw : 0 < w) :
    dilate5 (uniformG 255 h w) = uniformG 255 h w := by
  unfold dilate5
  rw [height_uniformG, width_uniformG 255 h w hh,
      show uniformG 255 h w = List.replicate h (List.replicate w 255) from rfl]
  apply map_range_const
  intro y hy
  apply map_range_const
  intro x hx
  rw [if_pos]
  apply List.any_eq_true.mpr
  refine ⟨((0 : Int), (0 : Int)), by decide, ?_⟩
  show (inB h w ((y : Int) + 0) ((x : Int) + 0) &&
        decide (0 < pixI (List.replicate h (List.replicate w 255)) ((y : Int) + 0) ((x : Int) + 0))) = true
  have h1 : inB h w ((y : Int) + 0) ((x : Int) + 0) = true := by
    simp only [inB, Bool.and_eq_true, decide_eq_true_eq]
    omega
  rw [h1, pixI_rep 255 h w _ _ (by omega) (by omega) (by omega) (by omega)]
  decide

theorem erode5_white (h w : Nat) (hh : 0 < h) (hw : 0 < w) :
    erode5 (uniformG 255 h w) = uniformG 255 h w := by
  unfold erode5
  rw [height_uniformG, width_uniformG 255 h w hh,
      show uniformG 255 h w = List.replicate h (List.replicate w 255) from rfl]
  apply map_range_const
  intro y hy
  apply map_range_const
  intro x hx
  rw [if_pos]
  apply List.all_eq_true.mpr
  intro o ho
  by_cases hb : inB h w ((y : Int) + o.1) ((x : Int) + o.2) = true
  · rw [Bool.or_eq_true]
    right
    have hbs := hb
    simp only [inB, Bool.and_eq_true, decide_eq_true_eq] at hbs
    rw [pixI_rep 255 h w _ _ (by omega) (by omega) (by omega) (by omega)]
    decide
  · rw [Bool.or_eq_true]
    left
    simp [hb]

theorem contentMask_white (h w : Nat) (hh : 0 < h) (hw : 0 < w) :
    contentMask (uniformG 255 h w) 220 = uniformG 255 h w := by
  unfold contentMask morphClose
  rw [adaptiveThr_uniformG 255 h w hh hw, fixedThr_white, bitwiseOr_white,
      dilate5_white h w hh hw, erode5_white h w hh hw]

theorem rowsWith_white (h w : Nat) (hw : 0 < w) :
    rowsWith (uniformG 255 h w) h = List.range h := by
  unfold rowsWith
  apply List.filter_eq_self.mpr
  intro i hi
  rw [show uniformG 255 h w = List.replicate h (List.replicate w 255) from rfl]
  rw [getD_replicate _ _ _ _ (List.mem_range.mp hi)]
  apply List.any_eq_true.mpr
  exact ⟨255, List.mem_replicate.mpr ⟨by omega, rfl⟩, by decide⟩

theorem colsWith_white (h w : Nat) (hh : 0 < h) :
    colsWith (uniformG 255 h w) w = List.range w := by
  unfold colsWith
  apply List.filter_eq_self.mpr
  intro j hj
  apply List.any_eq_true.mpr
  refine ⟨List.replicate w 255, List.mem_replicate.mpr ⟨by omega, rfl⟩, ?_⟩
  rw [getD_replicate _ _ _ _ (List.mem_range.mp hj)]
  decide

theorem headD_range (n : Nat) (hn : 0 < n) : (List.range n).headD 0 = 0 := by
  cases n with
  | zero => omega
  | succ m => rw [List.range_succ_eq_map]; rfl

theorem getLastD_range (n : Nat) (hn : 0 < n) : (List.range n).getLastD 0 = n - 1 := by
  cases n with
  | zero => omega
  | succ m =>
    rw [List.range_succ]
    simp [List.getLastD_concat]

theorem fcb_white (h w : Nat) (hh : 0 < h) (hw : 0 < w) :
    find_content_bounds (uniformG 255 h w) 220 = (0, 1, 0, 1) := by
  simp only [find_content_bounds]
  rw [contentMask_white h w hh hw, height_uniformG, width_uniformG 255 h w hh,
      rowsWith_white h w hw, colsWith_white h w hh]
  rw [if_neg]
  · rw [headD_range h hh, getLastD_range h hh, headD_range w hw, getLastD_range w hw]
    have e1 : h - (h - 1) = 1 := by omega
    have e2 : w - (w - 1) = 1 := by omega
    rw [e1, e2]
  · simp only [Bool.or_eq_true, List.isEmpty_iff, List.range_eq_nil]
    omega

theorem quadFlags_white (m n : Nat) (hm : 2 ≤ m) (hn : 2 ≤ n) :
    quadFlags (uniformG 255 m n) 220 = (false, false, false, false) := by
  simp only [quadFlags]
  rw [height_uniformG, width_uniformG 255 m n (by omega)]
  rw [slice2_uniformG, slice2_uniformG, slice2_uniformG, slice2_uniformG,
      has_content_white _ _ (by omega) (by omega), has_content_white _ _ (by omega) (by omega),
      has_content_white _ _ (by omega) (by omega), has_content_white _ _ (by omega) (by omega)]

theorem detect_layout_white (img : CMat) (m n : Nat) (hm : 2 ≤ m) (hn : 2 ≤ n) :
    (detect_layout img (uniformG 255 m n) 220).1 = "2x2" := by
  simp [detect_layout, quadCount, quadFlags_white m n hm hn]

theorem sectionsFor_2x2 (a b : Nat) :
    sectionsFor "2x2" a b =
      [((0, a / 2), (0, b / 2), "top-left"), ((0, a / 2), (b / 2, b), "top-right"),
       ((a / 2, a), (0, b / 2), "bottom-left"), ((a / 2, a), (b / 2, b), "bottom-right")] := by
  rfl

theorem processSections_skip_all (img : CMat) (gray : Mat) (t : Nat) (base outDir : String) :
    ∀ (sections : List ((Nat × Nat) × (Nat × Nat) × String)) (num : Nat),
      (∀ s ∈ sections, has_content (slice2 gray s.1.1 s.1.2 s.2.1.1 s.2.1.2) t (1/20) = false) →
      (processSections img gray t base outDir sections num).1 = [] := by
  intro sections
  induction sections with
  | nil => intro num _; rfl
  | cons s rest ih =>
    intro num hall
    rcases s with ⟨⟨y1, y2⟩, ⟨x1, x2⟩, pos⟩
    have hs := hall ((y1, y2), (x1, x2), pos) (List.mem_cons_self _ _)
    simp only [processSections, hs]
    exact ih num fun s hmem => hall s (List.mem_cons_of_mem _ hmem)

theorem cvtGray_white (h w : Nat) :
    cvtGray (uniformC (255, 255, 255) h w) = uniformG 255 h w := by
  unfold cvtGray uniformC uniformG
  rw [List.map_replicate, List.map_replicate]
  norm_num

theorem layoutAndExtract_white (m n : Nat) (hm : 2 ≤ m) (hn : 2 ≤ n) (base outDir : String) :
    (layoutAndExtract (uniformC (255, 255, 255) m n) (uniformG 255 m n) 220 base outDir).1 = [] ∧
    "✓ Split complete! Saved 0 photo(s)" ∈
      (layoutAndExtract (uniformC (255, 255, 255) m n) (uniformG 255 m n) 220 base outDir).2 := by
  have hdl : (detect_layout (uniformC (255, 255, 255) m n) (uniformG 255 m n) 220).1 = "2x2" :=
    detect_layout_white _ m n hm hn
  have hHi : height (uniformC (255, 255, 255) m n) = m := height_uniformC _ m n
  have hWi : width (uniformC (255, 255, 255) m n) = n := width_uniformC _ m n (by omega)
  have hskip : ∀ s ∈ sectionsFor "2x2" m n,
      has_content (slice2 (uniformG 255 m n) s.1.1 s.1.2 s.2.1.1 s.2.1.2) 220 (1/20) = false := by
    intro s hs
    rw [sectionsFor_2x2] at hs
    simp only [List.mem_cons, List.not_mem_nil, or_false] at hs
    rcases hs with rfl | rfl | rfl | rfl <;>
      (dsimp only; rw [slice2_uniformG]; exact has_content_white _ _ (by omega) (by omega))
  have hproc : (processSections (uniformC (255, 255, 255) m n) (uniformG 255 m n) 220
      base outDir (sectionsFor "2x2" m n) 1).1 = [] :=
    processSections_skip_all _ _ _ _ _ (sectionsFor "2x2" m n) 1 hskip
  have hsummary : ("✓ Split complete! Saved " ++ toString (0 : Nat) ++ " photo(s)") =
      "✓ Split complete! Saved 0 photo(s)" := rfl
  constructor
  · simp only [layoutAndExtract, hdl, hHi, hWi]
    exact hproc
  · simp only [layoutAndExtract, hdl, hHi, hWi, hproc]
    simp [hsummary]

/-- C2: for every fully blank (all-white) page of at least 3×3 pixels,
`split_photos_grid_smart` completes without raising any exception
(`Except.ok`, not an error), returns the empty list of photo paths, and
reports the empty outcome in its diagnostic output ("Saved 0 photo(s)")
rather than failing. -/
theorem c2_blank_page (h w : Nat) (hh : 3 ≤ h) (hw : 3 ≤ w) (p d : String) :
    (split_photos_grid_smart (some (uniformC (255, 255, 255) h w)) p d 220).ret =
      Except.ok [] ∧
    "✓ Split complete! Saved 0 photo(s)" ∈
      (split_photos_grid_smart (some (uniformC (255, 255, 255) h w)) p d 220).stdoutLines := by
  have h0 : 0 < h := by omega
  have w0 : 0 < w := by omega
  have hcvt := cvtGray_white h w
  have hWc := width_uniformC (255, 255, 255) h w h0
  have hfcb : find_content_bounds (cvtGray (uniformC (255, 255, 255) h w)) 220 = (0, 1, 0, 1) := by
    rw [hcvt]
    exact fcb_white h w h0 w0
  have himg2 : slice2 (uniformC (255, 255, 255) h w) 0 (h - 1) 0 (w - 1) =
      uniformC (255, 255, 255) (h - 1) (w - 1) := by
    rw [slice2_uniformC, show min ((h - 1) - 0) (h - 0) = h - 1 from by omega,
        show min ((w - 1) - 0) (w - 0) = w - 1 from by omega]
  have hgray2 : slice2 (cvtGray (uniformC (255, 255, 255) h w)) 0 (h - 1) 0 (w - 1) =
      uniformG 255 (h - 1) (w - 1) := by
    rw [hcvt, slice2_uniformG, show min ((h - 1) - 0) (h - 0) = h - 1 from by omega,
        show min ((w - 1) - 0) (w - 0) = w - 1 from by omega]
  have hle := layoutAndExtract_white (h - 1) (w - 1) (by omega) (by omega) (stem p) d
  have hcore1 : (splitCore (uniformC (255, 255, 255) h w) p d 220).1 = [] := by
    simp only [splitCore, height_uniformC, hWc, hfcb]
    rw [himg2, hgray2]
    exact hle.1
  have hcore2 : "✓ Split complete! Saved 0 photo(s)" ∈
      (splitCore (uniformC (255, 255, 255) h w) p d 220).2 := by
    simp only [splitCore, height_uniformC, hWc, hfcb]
    rw [himg2, hgray2]
    refine List.mem_append.mpr (Or.inr hle.2)
  constructor
  · simp only [split_photos_grid_smart, load_image]
    rw [hcore1]
    rfl
  · simp only [split_photos_grid_smart, load_image]
    exact hcore2

/-- C2 (witness): the blank-page behaviour evaluated at a concrete 3×3
all-white page. -/
theorem c2_blank_page_witness :
    (split_photos_grid_smart (some (uniformC (255, 255, 255) 3 3)) "scan.png" "photos" 220).ret =
      Except.ok [] ∧
    "✓ Split complete! Saved 0 photo(s)" ∈
      (split_photos_grid_smart (some (uniformC (255, 255, 255) 3 3)) "scan.png" "photos" 220).stdoutLines :=
  c2_blank_page 3 3 (by decide) (by decide) "scan.png" "photos"

theorem has_content_black (m n : Nat) (hm : 0 < m) (hn : 0 < n) :
    has_content (uniformG 0 m n) 220 (1/20) = true := by
  simp only [has_content]
  rw [if_pos]
  rw [npMean_uniformG 0 m n hm hn]
  norm_num

/-- C3: on every page-cropped image whose four quadrants all test as having
content (the configuration in which four photos are detected as the "2x2"
layout), the extracted photos are numbered consecutively starting at 1 in
reading order: photo 1 is the top-left quadrant crop, photo 2 top-right,
photo 3 bottom-left, photo 4 bottom-right — top-to-bottom primary,
left-to-right secondary, regardless of the image contents. -/
theorem c3_reading_order (img : CMat) (gray : Mat) (base outDir : String)
    (hH : height gray = height img) (hW : width gray = width img)
    (h1 : has_content (slice2 gray 0 (height gray / 2) 0 (width gray / 2)) 220 (1/20) = true)
    (h2 : has_content (slice2 gray 0 (height gray / 2) (width gray / 2) (width gray)) 220 (1/20) = true)
    (h3 : has_content (slice2 gray (height gray / 2) (height gray) 0 (width gray / 2)) 220 (1/20) = true)
    (h4 : has_content (slice2 gray (height gray / 2) (height gray) (width gray / 2) (width gray)) 220 (1/20) = true) :
    (layoutAndExtract img gray 220 base outDir).1 =
      [(outDir ++ "/" ++ base ++ "_photo_" ++ toString 1 ++ ".png",
        refineCrop (slice2 img 0 (height img / 2) 0 (width img / 2))
                   (slice2 gray 0 (height img / 2) 0 (width img / 2)) 220),
       (outDir ++ "/" ++ base ++ "_photo_" ++ toString 2 ++ ".png",
        refineCrop (slice2 img 0 (height img / 2) (width img / 2) (width img))
                   (slice2 gray 0 (height img / 2) (width img / 2) (width img)) 220),
       (outDir ++ "/" ++ base ++ "_photo_" ++ toString 3 ++ ".png",
        refineCrop (slice2 img (height img / 2) (height img) 0 (width img / 2))
                   (slice2 gray (height img / 2) (height img) 0 (width img / 2)) 220),
       (outDir ++ "/" ++ base ++ "_photo_" ++ toString 4 ++ ".png",
        refineCrop (slice2 img (height img / 2) (height img) (width img / 2) (width img))
                   (slice2 gray (height img / 2) (height img) (width img / 2) (width img)) 220)] := by
  have hflags : quadFlags gray 220 = (true, true, true, true) := by
    simp only [quadFlags]
    rw [h1, h2, h3, h4]
  have hdl : (detect_layout img gray 220).1 = "2x2" := by
    simp [detect_layout, quadCount, hflags]
  rw [hH, hW] at h1 h2 h3 h4
  simp only [layoutAndExtract, hdl, sectionsFor_2x2]
  simp only [processSections, h1, h2, h3, h4]
  simp [refineCrop]

/-- C3 (witness): the reading-order result evaluated on a concrete 4×4
all-black page: photo 1 is the top-left quadrant, then top-right,
bottom-left, bottom-right. -/
theorem c3_reading_order_witness :
    (layoutAndExtract (uniformC (0, 0, 0) 4 4) (uniformG 0 4 4) 220 "scan" "photos").1 =
      [("photos" ++ "/" ++ "scan" ++ "_photo_" ++ toString 1 ++ ".png",
        refineCrop (slice2 (uniformC (0, 0, 0) 4 4) 0 2 0 2) (slice2 (uniformG 0 4 4) 0 2 0 2) 220),
       ("photos" ++ "/" ++ "scan" ++ "_photo_" ++ toString 2 ++ ".png",
        refineCrop (slice2 (uniformC (0, 0, 0) 4 4) 0 2 2 4) (slice2 (uniformG 0 4 4) 0 2 2 4) 220),
       ("photos" ++ "/" ++ "scan" ++ "_photo_" ++ toString 3 ++ ".png",
        refineCrop (slice2 (uniformC (0, 0, 0) 4 4) 2 4 0 2) (slice2 (uniformG 0 4 4) 2 4 0 2) 220),
       ("photos" ++ "/" ++ "scan" ++ "_photo_" ++ toString 4 ++ ".png",
        refineCrop (slice2 (uniformC (0, 0, 0) 4 4) 2 4 2 4) (slice2 (uniformG 0 4 4) 2 4 2 4) 220)] :=
  c3_reading_order (uniformC (0, 0, 0) 4 4) (uniformG 0 4 4) "scan" "photos" rfl rfl
    (by exact has_content_black 2 2 (by decide) (by decide))
    (by exact has_content_black 2 2 (by decide) (by decide))
    (by exact has_content_black 2 2 (by decide) (by decide))
    (by exact has_content_black 2 2 (by decide) (by decide))
